import Mathlib

/-!
Verification of the transport-correlation layer and HTTP facade of the
laundree SDK (`src/sdk.js`), as a shallow embedding in Lean.

The embedding follows the source file closely:
  * `ProcState` models the process-wide module state: the module-level
    counter `let jobId = 1`, the per-`Sdk`-instance event-notification
    registry `jobEventEmitter` and the messages emitted on `this.socket`.
  * `Sdk.emit` models the job-correlation primitive (`Sdk.emit` in the
    source), `Sdk.reduxCallback` models the store-subscription callback
    installed by `Sdk.setupRedux`.
  * `Sdk._req` and the four request wrappers model the HTTP facade, with
    the credential provider and the HTTP transport as explicit
    environment parameters.
  * `UserSdk.fromEmail`, `UserSdk.startEmailVerification` and
    `UserSdk.forgotPassword` model the email-based user operations.
-/

/-- An untyped JavaScript value, as far as this module manipulates them. -/
inductive JsValue where
  | undef
  | null
  | bool (b : Bool)
  | num (n : Int)
  | str (s : String)
  | arr (elems : List JsValue)
  | obj (fields : List (String × JsValue))

/-- JavaScript truthiness test, negated: `!v` in the source. `NaN` is not
modelled (no arithmetic produces it here). Arrays and objects are always
truthy in JavaScript, including the empty array and the empty object. -/
def jsFalsy : JsValue → Bool
  | .undef => true
  | .null => true
  | .bool b => !b
  | .num n => n == 0
  | .str s => decide (s = "")
  | .arr _ => false
  | .obj _ => false

/-- Property access `v.name`: the named field of an object, `undefined`
otherwise. (Access on `null`/`undefined` would throw in JavaScript; every
access in the source is guarded, so the `undefined` default is never the
value actually observed on those.) -/
def JsValue.get (v : JsValue) (name : String) : JsValue :=
  match v with
  | .obj fields =>
      match fields.find? (fun f => decide (f.1 = name)) with
      | some f => f.2
      | none => .undef
  | _ => (.undef)

/-- `v.length`: array length, string length, or the `length` field of an
object; `undefined` on other values. Only reached on truthy values in the
source (guarded by `if (!body) return null`). -/
def JsValue.lengthProp : JsValue → JsValue
  | .arr elems => .num elems.length
  | .str s => .num s.length
  | .obj fields => JsValue.get (.obj fields) "length"
  | _ => (.undef)

/-- Indexing `v[i]` with a numeric literal index: array element or
`undefined` when out of range; `undefined` on non-indexable values. -/
def JsValue.index (v : JsValue) (i : Nat) : JsValue :=
  match v with
  | .arr elems => elems.getD i .undef
  | _ => (.undef)

/-- Strict equality `v === n` against a number literal, as in
`body.length !== 1`. Strict equality between a number literal and any
value is true exactly when the value is that number. -/
def jsStrictEqNum (v : JsValue) (m : Int) : Bool :=
  match v with
  | .num n => n == m
  | _ => false

/-- `new Error(msg)`: an error object carrying its message. -/
def jsError (msg : String) : JsValue :=
  .obj [("message", .str msg)]

/-- The decimal digit character for `d % 10`. -/
def digitChar (d : Nat) : Char := Char.ofNat (48 + d % 10)

/-- Decimal digits of `n`, most significant first, computed with explicit
fuel so that the definition is structurally recursive (and hence reduces
by `decide` on concrete inputs). -/
def natToDigitsAux : Nat → Nat → List Char
  | _, 0 => []
  | 0, _ + 1 => []
  | fuel + 1, n + 1 => natToDigitsAux fuel ((n + 1) / 10) ++ [digitChar ((n + 1) % 10)]

/-- Decimal digits of a positive `n`, most significant first. -/
def natDigits (n : Nat) : List Char := natToDigitsAux n n

/-- `n.toString()` for a JavaScript integer: its decimal representation.
This is the stringification applied to job identifiers on both sides of
the event registry (`jId.toString()` and `job.toString()`). -/
def natToString (n : Nat) : String :=
  if n = 0 then "0" else ⟨natDigits n⟩

theorem natToDigitsAux_stable (f1 : Nat) : ∀ f2 n, n ≤ f1 → n ≤ f2 →
    natToDigitsAux f1 n = natToDigitsAux f2 n := by
  induction f1 with
  | zero =>
    intro f2 n h1 _
    interval_cases n
    cases f2 <;> rfl
  | succ f1 ih =>
    intro f2 n h1 h2
    match n, f2 with
    | 0, f2 => cases f2 <;> rfl
    | n + 1, f2 + 1 =>
      show natToDigitsAux f1 ((n + 1) / 10) ++ _ = natToDigitsAux f2 ((n + 1) / 10) ++ _
      have hd : (n + 1) / 10 ≤ n := Nat.lt_succ_iff.mp (Nat.div_lt_self (Nat.succ_pos n) (by omega))
      rw [ih f2 ((n + 1) / 10) (by omega) (by omega)]

theorem natDigits_succ (n : Nat) (h : 0 < n) :
    natDigits n = natDigits (n / 10) ++ [digitChar (n % 10)] := by
  obtain ⟨m, rfl⟩ : ∃ m, n = m + 1 := ⟨n - 1, by omega⟩
  show natToDigitsAux m ((m + 1) / 10) ++ _ = natToDigitsAux ((m + 1) / 10) ((m + 1) / 10) ++ _
  have hd : (m + 1) / 10 ≤ m := Nat.lt_succ_iff.mp (Nat.div_lt_self (Nat.succ_pos m) (by omega))
  rw [natToDigitsAux_stable m ((m + 1) / 10) ((m + 1) / 10) hd le_rfl]

theorem natDigits_eq_nil_iff (n : Nat) : natDigits n = [] ↔ n = 0 := by
  constructor
  · intro h
    by_contra hn
    rw [natDigits_succ n (Nat.pos_of_ne_zero hn)] at h
    simp at h
  · rintro rfl; rfl

theorem digitChar_inj : ∀ d1 d2, d1 < 10 → d2 < 10 → digitChar d1 = digitChar d2 → d1 = d2 := by
  intro d1 d2 h1 h2 h
  interval_cases d1 <;> interval_cases d2 <;> revert h <;> decide

theorem natDigits_inj : ∀ a b, natDigits a = natDigits b → a = b := by
  intro a
  induction a using Nat.strong_induction_on with
  | _ a ih =>
    intro b h
    rcases Nat.eq_zero_or_pos a with ha | ha
    · subst ha
      exact ((natDigits_eq_nil_iff b).mp h.symm).symm
    rcases Nat.eq_zero_or_pos b with hb | hb
    · subst hb
      exact (natDigits_eq_nil_iff a).mp h
    rw [natDigits_succ a ha, natDigits_succ b hb] at h
    have h2 := congrArg List.reverse h
    simp only [List.reverse_append, List.reverse_cons, List.reverse_nil, List.nil_append,
      List.cons_append, List.cons.injEq, List.reverse_inj] at h2
    obtain ⟨hdig, hrest⟩ := h2
    have hmod : a % 10 = b % 10 :=
      digitChar_inj _ _ (Nat.mod_lt a (by omega)) (Nat.mod_lt b (by omega)) hdig
    have hdiv : a / 10 = b / 10 :=
      ih (a / 10) (Nat.div_lt_self ha (by omega)) (b / 10) hrest
    omega

theorem natToString_inj : ∀ a b, natToString a = natToString b → a = b := by
  intro a b h
  unfold natToString at h
  by_cases ha : a = 0 <;> by_cases hb : b = 0 <;> simp [ha, hb] at h ⊢
  · -- "0" = digits of positive b
    exfalso
    have hb' : 0 < b := Nat.pos_of_ne_zero hb
    have : natDigits b = ['0'] := by
      have := congrArg String.data h
      simpa using this.symm
    rw [natDigits_succ b hb'] at this
    rcases List.append_eq_cons_iff.mp this with ⟨h1, h2⟩ | ⟨as, h1, h2⟩
    · rw [natDigits_eq_nil_iff] at h1
      simp only [List.cons.injEq] at h2
      have : b % 10 = 0 := digitChar_inj _ 0 (Nat.mod_lt b (by omega)) (by omega) h2.1
      omega
    · have := congrArg List.length h2
      simp at this
  · exfalso
    have ha' : 0 < a := Nat.pos_of_ne_zero ha
    have : natDigits a = ['0'] := by
      have := congrArg String.data h
      simpa using this
    rw [natDigits_succ a ha'] at this
    rcases List.append_eq_cons_iff.mp this with ⟨h1, h2⟩ | ⟨as, h1, h2⟩
    · rw [natDigits_eq_nil_iff] at h1
      simp only [List.cons.injEq] at h2
      have : a % 10 = 0 := digitChar_inj _ 0 (Nat.mod_lt a (by omega)) (by omega) h2.1
      omega
    · have := congrArg List.length h2
      simp at this
  · exact natDigits_inj a b (by have := congrArg String.data h; simpa using this)

theorem natToString_eq_iff (a b : Nat) : natToString a = natToString b ↔ a = b :=
  ⟨natToString_inj a b, fun h => h ▸ rfl⟩

theorem decide_natToString_eq (a b : Nat) :
    decide (natToString a = natToString b) = decide (a = b) := by
  by_cases h : a = b
  · simp [h]
  · simp [h, (natToString_eq_iff a b).not.mpr h]

/-- The settlement state of a promise created by `Sdk.emit`. A promise
settles at most once: resolving an already resolved promise is a no-op. -/
inductive PromiseState where
  | pending
  | resolved (value : JsValue)

/-- Calling the `resolve` function of a promise: settles a pending
promise, and has no effect on one that has already settled. -/
def PromiseState.resolve (v : JsValue) : PromiseState → PromiseState
  | .pending => .resolved v
  | .resolved w => .resolved w

/-- A message sent on the persistent connection by
`this.socket.emit(action, {jobId: jId}, ...args)`: the event name, the
tag object `{jobId: jId}` and the forwarded positional arguments. -/
structure SocketMessage where
  action : String
  jobId : Nat
  args : List JsValue

/-- The per-`Sdk`-instance mutable state: the one-shot listeners of
`jobEventEmitter` (event name paired with the promise its registered
`resolve` callback settles, in registration order) and the messages
emitted on `this.socket`. -/
structure InstanceState where
  listeners : List (String × Nat)
  socketLog : List SocketMessage

/-- The process state: the module-level counter `let jobId = 1`, a
registry of the promises handed out by `Sdk.emit` (identified by
allocation order) and the state of every `Sdk` instance. The counter is
module-level, hence shared by all instances; emitters and sockets are
per instance. -/
structure ProcState where
  jobId : Nat
  promiseCount : Nat
  promiseOf : Nat → PromiseState
  instances : Nat → InstanceState

/-- Pointwise update of the instance table. -/
def setInst (f : Nat → InstanceState) (i : Nat) (v : InstanceState) : Nat → InstanceState :=
  fun j => if j = i then v else f j

@[simp] theorem setInst_same (f : Nat → InstanceState) (i : Nat) (v : InstanceState) :
    setInst f i v i = v := by
  simp [setInst]

theorem setInst_other (f : Nat → InstanceState) (i j : Nat) (v : InstanceState) (h : j ≠ i) :
    setInst f i v j = f j := by
  simp [setInst, h]

/-- `this.jobEventEmitter.emit(name, payload)` on instance `i`: every
one-shot listener registered for `name` is removed and its `resolve`
callback is invoked with the payload; listeners for other names are
untouched. -/
def fireEvent (i : Nat) (name : String) (payload : JsValue) (s : ProcState) : ProcState :=
  let inst := s.instances i
  let firing := inst.listeners.filter (fun l => decide (l.1 = name))
  { s with
    instances := setInst s.instances i
      { inst with listeners := inst.listeners.filter (fun l => !decide (l.1 = name)) },
    promiseOf := fun q =>
      if firing.any (fun l => decide (l.2 = q)) then (s.promiseOf q).resolve payload
      else s.promiseOf q }

/-- First half of the promise executor in `Sdk.emit`:
`this.jobEventEmitter.once(jId.toString(), resolve)` — a fresh promise is
allocated and a one-shot listener for the stringified job identifier is
registered to its `resolve`. -/
def Sdk.emitRegister (i jId : Nat) (s : ProcState) : ProcState :=
  let inst := s.instances i
  { s with
    promiseCount := s.promiseCount + 1,
    instances := setInst s.instances i
      { inst with listeners := inst.listeners ++ [(natToString jId, s.promiseCount)] } }

/-- Second half of the promise executor in `Sdk.emit`:
`this.socket.emit(...newArgs)` with `newArgs = [action, {jobId: jId}]
.concat(args)`. -/
def Sdk.emitSend (i : Nat) (action : String) (jId : Nat) (args : List JsValue)
    (s : ProcState) : ProcState :=
  let inst := s.instances i
  { s with
    instances := setInst s.instances i
      { inst with socketLog := inst.socketLog ++ [⟨action, jId, args⟩] } }

/-- `Sdk.emit(action, ...args)` on instance `i`: draw `jId = jobId++`,
register the one-shot waiter, then emit the tagged message; the returned
value is the promise (identified by its allocation index) paired with the
updated process state. -/
def Sdk.emit (i : Nat) (action : String) (args : List JsValue) (s : ProcState) :
    Nat × ProcState :=
  let jId := s.jobId
  let pid := s.promiseCount
  let s1 : ProcState := { s with jobId := s.jobId + 1 }
  (pid, Sdk.emitSend i action jId args (Sdk.emitRegister i jId s1))

/-- The store-subscription callback installed by `Sdk.setupRedux` on
instance `i`, reacting to a state snapshot whose current-job field is
`job`: `if (!job && job !== 0) return;
this.jobEventEmitter.emit(job.toString())`. A missing job is skipped; a
present job identifier (including `0`) fires the event named by its
decimal string, with no payload — the listeners receive `undefined`. -/
def Sdk.reduxCallback (i : Nat) (job : Option Nat) (s : ProcState) : ProcState :=
  match job with
  | none => s
  | some j => fireEvent i (natToString j) JsValue.undef s

/-- The process state right after the module is loaded: `let jobId = 1`,
no promises, and every instance with an empty emitter and socket log. -/
def initProc : ProcState :=
  { jobId := 1, promiseCount := 0, promiseOf := fun _ => .pending,
    instances := fun _ => ⟨[], []⟩ }

/-- A process state in which the counter has advanced to `c` (and `pc`
promises have been handed out and settled or dropped elsewhere), with no
listener pending on any instance — the situation "counter at `c`". -/
def cleanProc (c pc : Nat) : ProcState :=
  { jobId := c, promiseCount := pc, promiseOf := fun _ => .pending,
    instances := fun _ => ⟨[], []⟩ }

/-- A sequence of `Sdk.emit` calls on instance `i`, returning the
promises in call order. -/
def Sdk.emitMany (i : Nat) (calls : List (String × List JsValue)) (s : ProcState) :
    List Nat × ProcState :=
  match calls with
  | [] => ([], s)
  | (a, args) :: rest =>
      let r := Sdk.emit i a args s
      let rr := Sdk.emitMany i rest r.2
      (r.1 :: rr.1, rr.2)

/-- Delivery of a sequence of replies: the store successively exposes
each job identifier in `order` as the current job, and the subscription
callback fires for each. -/
def fireReplies (i : Nat) (order : List Nat) (s : ProcState) : ProcState :=
  match order with
  | [] => s
  | j :: rest => fireReplies i rest (Sdk.reduxCallback i (some j) s)

/-- The listener list produced by `n` consecutive registrations starting
at job identifier `c` and promise `p`. -/
def mkListeners : Nat → Nat → Nat → List (String × Nat)
  | _, _, 0 => []
  | c, p, n + 1 => (natToString c, p) :: mkListeners (c + 1) (p + 1) n

/-- The list `[p, p+1, ..., p+n-1]`. -/
def mkPids : Nat → Nat → List Nat
  | _, 0 => []
  | p, n + 1 => p :: mkPids (p + 1) n

/-- An interaction step with the module: an `Sdk.emit` call or a store
notification, on any instance. -/
inductive Op where
  | invoke (i : Nat) (action : String) (args : List JsValue)
  | notify (i : Nat) (job : Option Nat)

def runOp (s : ProcState) : Op → ProcState
  | .invoke i a args => (Sdk.emit i a args s).2
  | .notify i j => Sdk.reduxCallback i j s

def runOps (s : ProcState) : List Op → ProcState
  | [] => s
  | o :: rest => runOps (runOp s o) rest

/-- The job identifiers drawn by the `invoke` steps of a run, in order. -/
def drawnIds (s : ProcState) : List Op → List Nat
  | [] => []
  | .invoke i a args :: rest => s.jobId :: drawnIds (runOp s (.invoke i a args)) rest
  | .notify i j :: rest => drawnIds (runOp s (.notify i j)) rest

/-- The number of `invoke` steps in a run. -/
def emitCount : List Op → Nat
  | [] => 0
  | .invoke _ _ _ :: rest => emitCount rest + 1
  | .notify _ _ :: rest => emitCount rest

/-- The process states reachable from module load through the
operations of this module. -/
inductive Reachable : ProcState → Prop where
  | init : Reachable initProc
  | emit (i : Nat) (a : String) (args : List JsValue) {s : ProcState} :
      Reachable s → Reachable (Sdk.emit i a args s).2
  | notify (i : Nat) (job : Option Nat) {s : ProcState} :
      Reachable s → Reachable (Sdk.reduxCallback i job s)

@[simp] theorem Sdk.emit_fst (i : Nat) (a : String) (args : List JsValue) (s : ProcState) :
    (Sdk.emit i a args s).1 = s.promiseCount := rfl

@[simp] theorem Sdk.emit_jobId (i : Nat) (a : String) (args : List JsValue) (s : ProcState) :
    (Sdk.emit i a args s).2.jobId = s.jobId + 1 := rfl

@[simp] theorem Sdk.emit_promiseCount (i : Nat) (a : String) (args : List JsValue)
    (s : ProcState) : (Sdk.emit i a args s).2.promiseCount = s.promiseCount + 1 := rfl

@[simp] theorem Sdk.emit_promiseOf (i : Nat) (a : String) (args : List JsValue)
    (s : ProcState) : (Sdk.emit i a args s).2.promiseOf = s.promiseOf := rfl

@[simp] theorem Sdk.emit_listeners (i : Nat) (a : String) (args : List JsValue)
    (s : ProcState) :
    ((Sdk.emit i a args s).2.instances i).listeners =
      (s.instances i).listeners ++ [(natToString s.jobId, s.promiseCount)] := by
  simp [Sdk.emit, Sdk.emitSend, Sdk.emitRegister]

@[simp] theorem Sdk.emit_socketLog (i : Nat) (a : String) (args : List JsValue)
    (s : ProcState) :
    ((Sdk.emit i a args s).2.instances i).socketLog =
      (s.instances i).socketLog ++ [⟨a, s.jobId, args⟩] := by
  simp [Sdk.emit, Sdk.emitSend, Sdk.emitRegister]

theorem Sdk.emit_instances_other (i j : Nat) (a : String) (args : List JsValue)
    (s : ProcState) (h : j ≠ i) :
    (Sdk.emit i a args s).2.instances j = s.instances j := by
  simp [Sdk.emit, Sdk.emitSend, Sdk.emitRegister, setInst_other _ _ _ _ h]

@[simp] theorem fireEvent_jobId (i : Nat) (name : String) (v : JsValue) (s : ProcState) :
    (fireEvent i name v s).jobId = s.jobId := rfl

@[simp] theorem fireEvent_promiseCount (i : Nat) (name : String) (v : JsValue)
    (s : ProcState) : (fireEvent i name v s).promiseCount = s.promiseCount := rfl

theorem fireEvent_promiseOf (i : Nat) (name : String) (v : JsValue) (s : ProcState)
    (q : Nat) :
    (fireEvent i name v s).promiseOf q =
      if ((s.instances i).listeners.filter (fun l => decide (l.1 = name))).any
          (fun l => decide (l.2 = q)) then
        (s.promiseOf q).resolve v
      else s.promiseOf q := rfl

@[simp] theorem fireEvent_listeners (i : Nat) (name : String) (v : JsValue)
    (s : ProcState) :
    ((fireEvent i name v s).instances i).listeners =
      (s.instances i).listeners.filter (fun l => !decide (l.1 = name)) := by
  simp [fireEvent]

@[simp] theorem fireEvent_socketLog (i : Nat) (name : String) (v : JsValue)
    (s : ProcState) :
    ((fireEvent i name v s).instances i).socketLog = (s.instances i).socketLog := by
  simp [fireEvent]

theorem fireEvent_instances_other (i j : Nat) (name : String) (v : JsValue)
    (s : ProcState) (h : j ≠ i) :
    (fireEvent i name v s).instances j = s.instances j := by
  simp [fireEvent, setInst_other _ _ _ _ h]

@[simp] theorem reduxCallback_jobId (i : Nat) (job : Option Nat) (s : ProcState) :
    (Sdk.reduxCallback i job s).jobId = s.jobId := by
  cases job <;> rfl

@[simp] theorem reduxCallback_promiseCount (i : Nat) (job : Option Nat) (s : ProcState) :
    (Sdk.reduxCallback i job s).promiseCount = s.promiseCount := by
  cases job <;> rfl

theorem mkListeners_mem (l : String × Nat) :
    ∀ n c p, l ∈ mkListeners c p n ↔ ∃ k, k < n ∧ l = (natToString (c + k), p + k) := by
  intro n
  induction n with
  | zero => intro c p; simp [mkListeners]
  | succ n ih =>
    intro c p
    simp only [mkListeners, List.mem_cons, ih (c + 1) (p + 1)]
    constructor
    · rintro (rfl | ⟨k, hk, rfl⟩)
      · exact ⟨0, by omega, by simp⟩
      · exact ⟨k + 1, by omega, by rw [show c + 1 + k = c + (k + 1) by omega,
          show p + 1 + k = p + (k + 1) by omega]⟩
    · rintro ⟨k, hk, rfl⟩
      match k with
      | 0 => left; simp
      | k + 1 =>
        right
        exact ⟨k, by omega, by rw [show c + 1 + k = c + (k + 1) by omega,
          show p + 1 + k = p + (k + 1) by omega]⟩

theorem mkPids_getD (k : Nat) : ∀ n p, k < n → (mkPids p n).getD k 0 = p + k := by
  induction k with
  | zero =>
    intro n p h
    match n with
    | m + 1 => rfl
  | succ k ih =>
    intro n p h
    match n with
    | m + 1 =>
      show (mkPids (p + 1) m).getD k 0 = p + (k + 1)
      rw [ih m (p + 1) (by omega)]
      omega

theorem mkPids_length : ∀ n p, (mkPids p n).length = n := by
  intro n
  induction n with
  | zero => intro p; rfl
  | succ n ih => intro p; simp [mkPids, ih]

theorem mkPids_mem (q : Nat) : ∀ n p, q ∈ mkPids p n ↔ p ≤ q ∧ q < p + n := by
  intro n
  induction n with
  | zero => intro p; simp [mkPids]
  | succ n ih =>
    intro p
    simp only [mkPids, List.mem_cons, ih (p + 1)]
    omega

theorem mkPids_nodup : ∀ n p, (mkPids p n).Nodup := by
  intro n
  induction n with
  | zero => intro p; simp [mkPids]
  | succ n ih =>
    intro p
    simp only [mkPids, List.nodup_cons, ih (p + 1), and_true, mkPids_mem]
    omega

theorem mkPids_chain (n p : Nat) : (mkPids p n).Chain' (fun a b => b = a + 1) := by
  induction n generalizing p with
  | zero => simp [mkPids]
  | succ n ih =>
    match n with
    | 0 => simp [mkPids]
    | m + 1 =>
      exact List.Chain'.cons rfl (ih (p + 1))

/-- Characterization of a burst of `Sdk.emit` calls on instance `i`:
the promises handed out, the counter advance, and the listeners
registered. The promise registry itself is untouched (all new promises
are pending, as unallocated promise slots already are). -/
theorem Sdk.emitMany_spec (i : Nat) :
    ∀ (calls : List (String × List JsValue)) (s : ProcState),
    (Sdk.emitMany i calls s).1 = mkPids s.promiseCount calls.length ∧
    (Sdk.emitMany i calls s).2.jobId = s.jobId + calls.length ∧
    (Sdk.emitMany i calls s).2.promiseCount = s.promiseCount + calls.length ∧
    (Sdk.emitMany i calls s).2.promiseOf = s.promiseOf ∧
    ((Sdk.emitMany i calls s).2.instances i).listeners =
      (s.instances i).listeners ++ mkListeners s.jobId s.promiseCount calls.length := by
  intro calls
  induction calls with
  | nil => intro s; simp [Sdk.emitMany, mkPids, mkListeners]
  | cons c rest ih =>
    intro s
    obtain ⟨a, args⟩ := c
    obtain ⟨ih1, ih2, ih3, ih4, ih5⟩ := ih (Sdk.emit i a args s).2
    refine ⟨?_, ?_, ?_, ?_, ?_⟩
    · show s.promiseCount :: (Sdk.emitMany i rest (Sdk.emit i a args s).2).1 = _
      rw [ih1]
      simp [mkPids]
    · show (Sdk.emitMany i rest (Sdk.emit i a args s).2).2.jobId = _
      rw [ih2]
      simp [List.length_cons]
      omega
    · show (Sdk.emitMany i rest (Sdk.emit i a args s).2).2.promiseCount = _
      rw [ih3]
      simp [List.length_cons]
      omega
    · show (Sdk.emitMany i rest (Sdk.emit i a args s).2).2.promiseOf = _
      rw [ih4]
      simp
    · show ((Sdk.emitMany i rest (Sdk.emit i a args s).2).2.instances i).listeners = _
      rw [ih5]
      simp only [Sdk.emit_listeners, Sdk.emit_jobId, Sdk.emit_promiseCount, List.append_assoc,
        List.length_cons]
      congr 1

/-- Marks, in addition to `done`, the promise resolved by a notification
for job `j` against a block of `n` waiters for jobs `c..c+n-1` holding
promises `p..p+n-1`. -/
def bump (c p n j : Nat) (done : Nat → Bool) : Nat → Bool :=
  fun q => done q || (decide (c ≤ j) && decide (j < c + n) && decide (q = p + (j - c)))

/-- Iterates `bump` over a delivery order. -/
def bumpAll (c p n : Nat) (order : List Nat) (done : Nat → Bool) : Nat → Bool :=
  match order with
  | [] => done
  | j :: rest => bumpAll c p n rest (bump c p n j done)

/-- Invariant during reply delivery to a block of `n` waiters registered
for jobs `c..c+n-1` with promises `p..p+n-1`: `done` marks the promises
whose reply has been observed; exactly the untouched waiters are still
registered, and exactly the marked promises are resolved (with
`undefined`, the payload the subscription callback passes). -/
def FiringInv (i c p n : Nat) (done : Nat → Bool) (s : ProcState) : Prop :=
  ((s.instances i).listeners = (mkListeners c p n).filter (fun l => !done l.2)) ∧
  (∀ q, s.promiseOf q =
    if p ≤ q ∧ q < p + n ∧ done q = true then .resolved .undef else .pending)

theorem bump_elem_eval (c p n j k : Nat) (hk : k < n) :
    (decide (c ≤ j) && decide (j < c + n) && decide (p + k = p + (j - c))) =
      decide (c + k = j) := by
  by_cases hj : c + k = j
  · have h1 : c ≤ j := by omega
    have h2 : j < c + n := by omega
    have h3 : p + k = p + (j - c) := by omega
    simp [hj, h1, h2, h3]
  · by_cases h1 : c ≤ j
    · by_cases h2 : j < c + n
      · have h3 : ¬(p + k = p + (j - c)) := by omega
        simp [hj, h1, h2, h3]
      · simp [hj, h2]
    · simp [hj, h1]

theorem firingInv_step (i c p n j : Nat) (done : Nat → Bool) (s : ProcState)
    (h : FiringInv i c p n done s) :
    FiringInv i c p n (bump c p n j done) (Sdk.reduxCallback i (some j) s) := by
  obtain ⟨hl, hp⟩ := h
  constructor
  · show ((fireEvent i (natToString j) .undef s).instances i).listeners = _
    rw [fireEvent_listeners, hl, List.filter_filter]
    apply List.filter_congr
    intro l hlmem
    rw [mkListeners_mem] at hlmem
    obtain ⟨k, hk, rfl⟩ := hlmem
    show (!decide (natToString (c + k) = natToString j) && !done (p + k)) =
      !bump c p n j done (p + k)
    rw [decide_natToString_eq]
    unfold bump
    rw [bump_elem_eval c p n j k hk]
    by_cases hj : c + k = j <;> simp [hj]
  · intro q
    show (fireEvent i (natToString j) .undef s).promiseOf q = _
    rw [fireEvent_promiseOf, hl, List.filter_filter, List.any_filter]
    by_cases hfire : ((mkListeners c p n).any
        (fun l => (decide (l.1 = natToString j) && !done l.2) && decide (l.2 = q))) = true
    · rw [if_pos hfire]
      rw [List.any_eq_true] at hfire
      obtain ⟨l, hlmem, hl2⟩ := hfire
      rw [mkListeners_mem] at hlmem
      obtain ⟨k, hk, rfl⟩ := hlmem
      simp only [decide_natToString_eq, Bool.and_eq_true, decide_eq_true_eq,
        Bool.not_eq_true'] at hl2
      obtain ⟨⟨hjk, hdone⟩, hq⟩ := hl2
      rw [hp q]
      rw [if_neg (by rw [← hq]; rintro ⟨-, -, hcontra⟩; rw [hdone] at hcontra; cases hcontra)]
      have hbump : bump c p n j done q = true := by
        unfold bump
        rw [← hq, bump_elem_eval c p n j k hk]
        simp [hjk]
      rw [if_pos ⟨by omega, by omega, hbump⟩]
      rfl
    · rw [if_neg hfire]
      rw [hp q]
      by_cases hrange : p ≤ q ∧ q < p + n
      · obtain ⟨k, hk, rfl⟩ : ∃ k, k < n ∧ q = p + k := ⟨q - p, by omega, by omega⟩
        have hbump : bump c p n j done (p + k) = done (p + k) := by
          unfold bump
          rw [bump_elem_eval c p n j k hk]
          by_cases hj : c + k = j
          · have hdone : done (p + k) = true := by
              by_contra hdone
              apply hfire
              rw [List.any_eq_true]
              refine ⟨(natToString (c + k), p + k), ?_, ?_⟩
              · rw [mkListeners_mem]; exact ⟨k, hk, rfl⟩
              · rw [Bool.not_eq_true] at hdone
                simp [decide_natToString_eq, hj, hdone]
            simp [hdone]
          · simp [hj]
        rw [hbump]
      · rw [if_neg (fun hc => hrange ⟨hc.1, hc.2.1⟩), if_neg (fun hc => hrange ⟨hc.1, hc.2.1⟩)]

theorem firingInv_fold (i c p n : Nat) :
    ∀ (order : List Nat) (done : Nat → Bool) (s : ProcState),
    FiringInv i c p n done s →
    FiringInv i c p n (bumpAll c p n order done) (fireReplies i order s) := by
  intro order
  induction order with
  | nil => intro done s h; exact h
  | cons j rest ih =>
    intro done s h
    exact ih _ _ (firingInv_step i c p n j done s h)

theorem bumpAll_eval (c p n : Nat) :
    ∀ (order : List Nat) (done : Nat → Bool) (k : Nat), k < n →
    bumpAll c p n order done (p + k) = (done (p + k) || decide ((c + k) ∈ order)) := by
  intro order
  induction order with
  | nil => intro done k hk; simp [bumpAll]
  | cons j rest ih =>
    intro done k hk
    show bumpAll c p n rest (bump c p n j done) (p + k) = _
    rw [ih _ k hk]
    have hmem : decide ((c + k) ∈ j :: rest) = (decide (c + k = j) || decide ((c + k) ∈ rest)) := by
      simp [List.mem_cons]
    rw [hmem]
    unfold bump
    rw [bump_elem_eval c p n j k hk, Bool.or_assoc]

/-- Claim C2: identifier routing is permutation-invariant. For any burst
of N concurrent `invoke` calls made from a state with counter at `c` and
no pending waiter, and any delivery order of replies, the promise of the
k-th call is resolved exactly when the reply for its own job identifier
`c + k` has been delivered, regardless of the order or of which other
replies have arrived; in particular the promise of a call whose reply has
not yet arrived is still pending. -/
theorem emit_routing_permutation_invariant
    (calls : List (String × List JsValue)) (i c pc k : Nat) (order : List Nat)
    (hk : k < calls.length) :
    (fireReplies i order (Sdk.emitMany i calls (cleanProc c pc)).2).promiseOf
        ((Sdk.emitMany i calls (cleanProc c pc)).1.getD k 0) =
      if (c + k) ∈ order then .resolved .undef else .pending := by
  obtain ⟨h1, h2, h3, h4, h5⟩ := Sdk.emitMany_spec i calls (cleanProc c pc)
  have hinv : FiringInv i c pc calls.length (fun _ => false)
      (Sdk.emitMany i calls (cleanProc c pc)).2 := by
    constructor
    · rw [h5]
      show [] ++ _ = _
      rw [List.nil_append]
      exact (List.filter_eq_self.mpr (by intro a _; rfl)).symm
    · intro q
      rw [h4]
      show PromiseState.pending = _
      simp
  obtain ⟨hfl, hfp⟩ := firingInv_fold i c pc calls.length order _ _ hinv
  rw [h1]
  show (fireReplies i order (Sdk.emitMany i calls (cleanProc c pc)).2).promiseOf
    ((mkPids (cleanProc c pc).promiseCount calls.length).getD k 0) = _
  rw [show (cleanProc c pc).promiseCount = pc from rfl, mkPids_getD k calls.length pc hk,
    hfp (pc + k), bumpAll_eval c pc calls.length order _ k hk]
  by_cases hmem : (c + k) ∈ order
  · rw [if_pos ⟨by omega, by omega, by simp [hmem]⟩, if_pos hmem]
  · rw [if_neg (by simp [hmem]), if_neg hmem]

/-- Witness for C2, the two-call scenario of the claim: two concurrent
calls draw identifiers 8 and 9; after the reply for 9 alone, the call-9
promise is resolved and the call-8 promise is still pending; after the
reply for 8 also arrives, both are resolved. -/
theorem emit_routing_permutation_invariant_witness :
    (fireReplies 0 [9] (Sdk.emitMany 0 [("a", []), ("b", [])] (cleanProc 8 0)).2).promiseOf
        ((Sdk.emitMany 0 [("a", []), ("b", [])] (cleanProc 8 0)).1.getD 0 0) =
      .pending ∧
    (fireReplies 0 [9] (Sdk.emitMany 0 [("a", []), ("b", [])] (cleanProc 8 0)).2).promiseOf
        ((Sdk.emitMany 0 [("a", []), ("b", [])] (cleanProc 8 0)).1.getD 1 0) =
      .resolved .undef ∧
    (fireReplies 0 [9, 8] (Sdk.emitMany 0 [("a", []), ("b", [])] (cleanProc 8 0)).2).promiseOf
        ((Sdk.emitMany 0 [("a", []), ("b", [])] (cleanProc 8 0)).1.getD 0 0) =
      .resolved .undef := by
  refine ⟨?_, ?_, ?_⟩
  · rw [emit_routing_permutation_invariant [("a", []), ("b", [])] 0 8 0 0 [9] (by decide)]
    rw [if_neg (by decide)]
  · rw [emit_routing_permutation_invariant [("a", []), ("b", [])] 0 8 0 1 [9] (by decide)]
    rw [if_pos (by decide)]
  · rw [emit_routing_permutation_invariant [("a", []), ("b", [])] 0 8 0 0 [9, 8] (by decide)]
    rw [if_pos (by decide)]

theorem runOp_jobId (s : ProcState) (o : Op) :
    (runOp s o).jobId = s.jobId + (match o with | .invoke _ _ _ => 1 | .notify _ _ => 0) := by
  cases o with
  | invoke i a args => rfl
  | notify i j => simp [runOp]

theorem drawnIds_eq (ops : List Op) : ∀ s : ProcState,
    drawnIds s ops = mkPids s.jobId (emitCount ops) := by
  induction ops with
  | nil => intro s; rfl
  | cons o rest ih =>
    intro s
    cases o with
    | invoke i a args =>
      show s.jobId :: drawnIds (runOp s (.invoke i a args)) rest = _
      rw [ih, runOp_jobId]
      rfl
    | notify i j =>
      show drawnIds (runOp s (.notify i j)) rest = _
      rw [ih, runOp_jobId]
      rfl

/-- Claim C3: job identifiers are drawn from an incrementing process-wide
counter starting at 1. In any interaction run from module load — with the
`invoke` steps spread over arbitrary `Sdk` instances, since the counter
is module-level state shared by every instance — the identifiers drawn
are exactly `[1, 2, ..., n]`: strictly increasing in steps of one with no
gaps, pairwise distinct (never reused, also across instances), and all
positive. -/
theorem jobIds_from_shared_counter (ops : List Op) :
    drawnIds initProc ops = mkPids 1 (emitCount ops) ∧
    (drawnIds initProc ops).Chain' (fun a b => b = a + 1) ∧
    (drawnIds initProc ops).Nodup ∧
    ∀ j ∈ drawnIds initProc ops, 0 < j := by
  have h := drawnIds_eq ops initProc
  rw [show initProc.jobId = 1 from rfl] at h
  refine ⟨h, ?_, ?_, ?_⟩
  · rw [h]; exact mkPids_chain (emitCount ops) 1
  · rw [h]; exact mkPids_nodup (emitCount ops) 1
  · intro j hj
    rw [h, mkPids_mem] at hj
    omega

/-- Witness for C3 at a concrete run: two `invoke` calls on two different
instances with an interleaved notification draw the identifiers 1 and 2,
and the identifier 2 drawn by the second instance is positive. -/
theorem jobIds_from_shared_counter_witness :
    drawnIds initProc [.invoke 0 "a" [], .notify 0 (some 1), .invoke 1 "b" []] = [1, 2] ∧
    0 < 2 := by
  refine ⟨?_, ?_⟩
  · rw [(jobIds_from_shared_counter [.invoke 0 "a" [], .notify 0 (some 1), .invoke 1 "b" []]).1]
    rfl
  · exact (jobIds_from_shared_counter [.invoke 0 "a" [], .notify 0 (some 1), .invoke 1 "b" []]).2.2.2
      2 (by decide)

attribute [ext] InstanceState ProcState

@[simp] theorem reduxCallback_some (i j : Nat) (s : ProcState) :
    Sdk.reduxCallback i (some j) s = fireEvent i (natToString j) JsValue.undef s := rfl

/-- Well-formedness of the waiter registries: every registered event name
is the decimal string of an already-drawn job identifier, and within each
instance the registered names are pairwise distinct. -/
def ListenerNamesOk (s : ProcState) : Prop :=
  ∀ i, (∀ l ∈ (s.instances i).listeners, ∃ m, m < s.jobId ∧ l.1 = natToString m) ∧
    ((s.instances i).listeners.map Prod.fst).Nodup

theorem reachable_listenerNamesOk (s : ProcState) (h : Reachable s) : ListenerNamesOk s := by
  induction h with
  | init =>
    intro i
    refine ⟨?_, List.nodup_nil⟩
    intro l hl
    cases hl
  | @emit i a args s _ ih =>
    intro i'
    by_cases hi : i' = i
    · subst hi
      obtain ⟨ihb, ihn⟩ := ih i'
      constructor
      · intro l hl
        rw [Sdk.emit_listeners, List.mem_append] at hl
        rcases hl with hl | hl
        · obtain ⟨m, hm, hname⟩ := ihb l hl
          refine ⟨m, ?_, hname⟩
          rw [Sdk.emit_jobId]
          omega
        · rw [List.mem_singleton] at hl
          subst hl
          refine ⟨s.jobId, ?_, rfl⟩
          rw [Sdk.emit_jobId]
          omega
      · rw [Sdk.emit_listeners, List.map_append]
        rw [List.nodup_append]
        refine ⟨ihn, List.nodup_singleton _, ?_⟩
        intro x hx hx2
        rw [List.mem_map] at hx
        obtain ⟨l, hl, rfl⟩ := hx
        obtain ⟨m, hm, hname⟩ := ihb l hl
        rw [show (List.map Prod.fst [(natToString s.jobId, s.promiseCount)]) =
          [natToString s.jobId] from rfl, List.mem_singleton] at hx2
        rw [hname] at hx2
        have := natToString_inj _ _ hx2
        omega
    · obtain ⟨ihb, ihn⟩ := ih i'
      rw [Sdk.emit_instances_other i i' a args s hi]
      refine ⟨?_, ihn⟩
      intro l hl
      obtain ⟨m, hm, hname⟩ := ihb l hl
      refine ⟨m, ?_, hname⟩
      rw [Sdk.emit_jobId]
      omega
  | @notify i job s _ ih =>
    cases job with
    | none => exact ih
    | some j =>
      intro i'
      obtain ⟨ihb, ihn⟩ := ih i'
      rw [reduxCallback_some]
      by_cases hi : i' = i
      · subst hi
        constructor
        · intro l hl
          rw [fireEvent_jobId]
          rw [fireEvent_listeners] at hl
          exact ihb l (List.mem_of_mem_filter hl)
        · rw [fireEvent_listeners]
          exact ihn.sublist (List.Sublist.map Prod.fst (List.filter_sublist _))
      · rw [fireEvent_instances_other i i' (natToString j) JsValue.undef s hi]
        refine ⟨?_, ihn⟩
        intro l hl
        obtain ⟨m, hm, hname⟩ := ihb l hl
        refine ⟨m, ?_, hname⟩
        rw [fireEvent_jobId]
        omega

/-- Firing an event a second time finds no listener (the one-shot waiters
for that name were all removed by the first firing) and changes nothing:
neither the registry nor any promise. -/
theorem fireEvent_second_noop (i : Nat) (name : String) (v w : JsValue) (s : ProcState) :
    fireEvent i name w (fireEvent i name v s) = fireEvent i name v s := by
  have hfilter : ((fireEvent i name v s).instances i).listeners.filter
      (fun l => decide (l.1 = name)) = [] := by
    rw [fireEvent_listeners, List.filter_filter, List.filter_eq_nil_iff]
    intro a _
    simp
  refine ProcState.ext rfl rfl ?_ ?_
  · funext q
    rw [fireEvent_promiseOf, hfilter]
    simp
  · funext j
    by_cases hi : j = i
    · subst hi
      refine InstanceState.ext ?_ ?_
      · rw [fireEvent_listeners, List.filter_eq_self]
        intro a ha
        have hno : ¬(decide (a.1 = name) = true) := by
          intro hdec
          have hmem : a ∈ ((fireEvent j name v s).instances j).listeners.filter
              (fun l => decide (l.1 = name)) := List.mem_filter.mpr ⟨ha, hdec⟩
          rw [hfilter] at hmem
          cases hmem
        simp only [decide_eq_true_eq] at hno
        simp [hno]
      · rw [fireEvent_socketLog]
    · exact fireEvent_instances_other i j name w _ hi

/-- Claim C6: at most one waiter is registered per job identifier at any
time (in every reachable state the event names registered in an
instance registry are pairwise distinct), a waiter fires at most once
(firing removes it), and firing a second notification for an identifier
whose waiter already fired changes nothing at all — neither the registry
nor any promise. -/
theorem waiter_unique_and_second_fire_noop :
    (∀ s, Reachable s → ∀ i, ((s.instances i).listeners.map Prod.fst).Nodup) ∧
    (∀ s i j, Sdk.reduxCallback i (some j) (Sdk.reduxCallback i (some j) s) =
      Sdk.reduxCallback i (some j) s) := by
  constructor
  · intro s h i
    exact (reachable_listenerNamesOk s h i).2
  · intro s i j
    simp only [reduxCallback_some]
    exact fireEvent_second_noop i (natToString j) JsValue.undef JsValue.undef s

/-- Witness for C6 at a concrete reachable state: after two `invoke`
calls the two registered waiter names are distinct, and a repeated
notification for job 1 is a no-op. -/
theorem waiter_unique_and_second_fire_noop_witness :
    (((Sdk.emit 0 "b" [] (Sdk.emit 0 "a" [] initProc).2).2.instances 0).listeners.map
      Prod.fst).Nodup ∧
    Sdk.reduxCallback 0 (some 1)
        (Sdk.reduxCallback 0 (some 1) (Sdk.emit 0 "a" [] initProc).2) =
      Sdk.reduxCallback 0 (some 1) (Sdk.emit 0 "a" [] initProc).2 := by
  constructor
  · exact waiter_unique_and_second_fire_noop.1 _
      (Reachable.emit 0 "b" [] (Reachable.emit 0 "a" [] Reachable.init)) 0
  · exact waiter_unique_and_second_fire_noop.2 (Sdk.emit 0 "a" [] initProc).2 0 1

/-- Claim C5: within a single `invoke` call the one-shot waiter is
registered strictly before the message is emitted on the socket.
`Sdk.emit` is definitionally `emitSend` applied after `emitRegister`, and
in the intermediate state — after registration, before sending — the
waiter for the drawn identifier is already present while the socket log
is still untouched; so at no point does the message exist on the
connection without a registered waiter for its identifier. -/
theorem emit_registers_before_sending (i : Nat) (action : String) (args : List JsValue)
    (s : ProcState) :
    Sdk.emit i action args s =
      (s.promiseCount,
        Sdk.emitSend i action s.jobId args
          (Sdk.emitRegister i s.jobId { s with jobId := s.jobId + 1 })) ∧
    ((Sdk.emitRegister i s.jobId { s with jobId := s.jobId + 1 }).instances i).socketLog =
      (s.instances i).socketLog ∧
    (natToString s.jobId, s.promiseCount) ∈
      ((Sdk.emitRegister i s.jobId { s with jobId := s.jobId + 1 }).instances i).listeners := by
  refine ⟨rfl, ?_, ?_⟩
  · simp [Sdk.emitRegister]
  · simp [Sdk.emitRegister]

/-- Claim C1 (amended): for every `invoke` (`Sdk.emit`) call from a state
with the counter at `c` and no pending waiter, a fresh identifier `c` is
drawn, a one-shot waiter is registered for the event named by the decimal
string of `c`, the tagged message is emitted over the connection, and
the returned promise — initially pending — resolves with `undefined`
once the reply observation path fires the event for `c`: the
subscription callback passes no payload (consistently, `emit` is typed
`Promise<void>` in the source), so the promise never carries the reply
payload. -/
theorem emit_resolves_with_undefined (i c pc : Nat) (action : String) (args : List JsValue) :
    ((Sdk.emit i action args (cleanProc c pc)).2.instances i).socketLog =
      [⟨action, c, args⟩] ∧
    (natToString c, pc) ∈ ((Sdk.emit i action args (cleanProc c pc)).2.instances i).listeners ∧
    (Sdk.emit i action args (cleanProc c pc)).2.promiseOf
      (Sdk.emit i action args (cleanProc c pc)).1 = .pending ∧
    (Sdk.reduxCallback i (some c) (Sdk.emit i action args (cleanProc c pc)).2).promiseOf
      (Sdk.emit i action args (cleanProc c pc)).1 = .resolved .undef := by
  refine ⟨?_, ?_, ?_, ?_⟩
  · rw [Sdk.emit_socketLog]
    rfl
  · rw [Sdk.emit_listeners]
    simp only [List.mem_append, List.mem_singleton]
    exact Or.inr rfl
  · rfl
  · rw [reduxCallback_some, fireEvent_promiseOf, Sdk.emit_listeners, Sdk.emit_promiseOf,
      Sdk.emit_fst]
    simp [cleanProc]
    rfl

/-- Counterexample to claim C1 as stated: in its end-to-end scenario —
counter at 7, an `invoke` of listUsers with one argument, then the
observation path reporting current job 7 — the pending promise resolves
with `undefined`, which is not the reply payload the claim says it
receives: the subscription callback of `setupRedux` fires the event with
no payload at all. -/
theorem emit_reply_payload_cex :
    (Sdk.reduxCallback 0 (some 7)
        (Sdk.emit 0 "listUsers" [JsValue.obj [("limit", JsValue.num 10)]]
          (cleanProc 7 0)).2).promiseOf
      (Sdk.emit 0 "listUsers" [JsValue.obj [("limit", JsValue.num 10)]] (cleanProc 7 0)).1 =
      PromiseState.resolved JsValue.undef ∧
    PromiseState.resolved JsValue.undef ≠
      PromiseState.resolved (JsValue.arr [JsValue.obj [("id", JsValue.str "u1")]]) := by
  constructor
  · rfl
  · intro h
    injection h with h2
    cases h2

/-- The standard base64 alphabet. -/
def base64Chars : List Char :=
  "ABCDEFGHIJKLMNOPQRSTUVWXYZabcdefghijklmnopqrstuvwxyz0123456789+/".data

def base64Char (n : Nat) : Char := base64Chars.getD n (Char.ofNat 65)

/-- Base64 of a byte sequence, with padding — the encoding performed by
`Buffer.from(s).toString(base64)`. -/
def base64Encode : List Nat → List Char
  | [] => []
  | [b1] => [base64Char (b1 / 4), base64Char (b1 % 4 * 16), Char.ofNat 61, Char.ofNat 61]
  | [b1, b2] => [base64Char (b1 / 4), base64Char (b1 % 4 * 16 + b2 / 16),
      base64Char (b2 % 16 * 4), Char.ofNat 61]
  | b1 :: b2 :: b3 :: rest =>
      base64Char (b1 / 4) :: base64Char (b1 % 4 * 16 + b2 / 16) ::
      base64Char (b2 % 16 * 4 + b3 / 64) :: base64Char (b3 % 64) :: base64Encode rest

def base64 (bytes : List Nat) : String := ⟨base64Encode bytes⟩

/-- UTF-8 encoding of one code point. -/
def utf8EncodeChar (c : Nat) : List Nat :=
  if c < 0x80 then [c]
  else if c < 0x800 then [0xC0 + c / 0x40, 0x80 + c % 0x40]
  else if c < 0x10000 then [0xE0 + c / 0x1000, 0x80 + c / 0x40 % 0x40, 0x80 + c % 0x40]
  else [0xF0 + c / 0x40000, 0x80 + c / 0x1000 % 0x40, 0x80 + c / 0x40 % 0x40, 0x80 + c % 0x40]

/-- UTF-8 bytes of a string, as `Buffer.from(s)` produces. -/
def utf8Encode (s : String) : List Nat :=
  (s.data.map (fun ch => utf8EncodeChar ch.toNat)).flatten

def hexDigit (n : Nat) : Char :=
  if n % 16 < 10 then Char.ofNat (48 + n % 16) else Char.ofNat (55 + n % 16)

/-- Percent-encoding of one byte, uppercase hex. -/
def percentByte (b : Nat) : List Char := [Char.ofNat 37, hexDigit (b / 16), hexDigit (b % 16)]

/-- The characters `encodeURIComponent` leaves intact: letters, digits
and `- _ . ! ~ * ( )` and the apostrophe (code 39). -/
def encodeURIComponentSafe (c : Char) : Bool :=
  (65 ≤ c.toNat && c.toNat ≤ 90) || (97 ≤ c.toNat && c.toNat ≤ 122) ||
  (48 ≤ c.toNat && c.toNat ≤ 57) ||
  [45, 95, 46, 33, 126, 42, 39, 40, 41].contains c.toNat

/-- `encodeURIComponent`: percent-encodes the UTF-8 bytes of every
character outside the unreserved set. -/
def encodeURIComponent (s : String) : String :=
  ⟨s.data.flatMap fun c =>
    if encodeURIComponentSafe c then [c]
    else (utf8EncodeChar c.toNat).flatMap percentByte⟩

/-- The credential strategy variants returned by the injected
authenticator, from the `AuthenticatorStrategy` type of the source. -/
inductive AuthStrategy where
  | unauthenticated
  | basic (username password : String)
  | bearer (token : String)

/-- The Authorization header set by the `switch (authStrategy.type)` of
`Sdk._req`: none for unauthenticated, otherwise the rendered scheme. -/
def renderAuthHeader : AuthStrategy → Option String
  | .unauthenticated => none
  | .basic username password =>
      some ("Basic " ++ base64 (utf8Encode (username ++ ":" ++ password)))
  | .bearer token => some ("Bearer " ++ token)

inductive HttpMethod where
  | get
  | post
  | put
  | delete

/-- A request as actually sent by superagent: method, full URL, the
Authorization header if one was set, and the serialized JSON body if one
was given (`req.send(data)`; `req.then()` sends without a body). -/
structure HttpRequest where
  method : HttpMethod
  url : String
  authorization : Option String
  body : Option JsValue

/-- The observable interaction state of the HTTP facade: how many times
the injected credential provider has been invoked, and the requests sent
so far. -/
structure HttpState where
  authCalls : Nat
  requestLog : List HttpRequest

/-- The environment of the facade: the configured base URL, the injected
async credential provider (its outcome on its n-th invocation — a
rotating provider returns different strategies on different calls), and
the transport (the outcome of sending a request: the response object, or
a rejection for a network failure or non-2xx status). -/
structure HttpEnv where
  baseUrl : String
  authenticator : Nat → Except JsValue AuthStrategy
  respond : HttpRequest → Except JsValue JsValue

/-- `Sdk._req(method, path, data = null)`: build the request for
`baseUrl + path`, await the authenticator — a rejection propagates and
nothing is sent — then set the Authorization header per variant and send,
with the body exactly when `data` is given. The promise resolves with the
full superagent response. -/
def Sdk._req (env : HttpEnv) (method : HttpMethod) (path : String) (data : Option JsValue)
    (hs : HttpState) : Except JsValue JsValue × HttpState :=
  let url := env.baseUrl ++ path
  match env.authenticator hs.authCalls with
  | .error e => (.error e, { hs with authCalls := hs.authCalls + 1 })
  | .ok strategy =>
      let req : HttpRequest := ⟨method, url, renderAuthHeader strategy, data⟩
      (env.respond req, ⟨hs.authCalls + 1, hs.requestLog ++ [req]⟩)

def Sdk.postRequest (env : HttpEnv) (path : String) (data : Option JsValue) (hs : HttpState) :
    Except JsValue JsValue × HttpState :=
  Sdk._req env .post path data hs

def Sdk.deleteRequest (env : HttpEnv) (path : String) (hs : HttpState) :
    Except JsValue JsValue × HttpState :=
  Sdk._req env .delete path none hs

def Sdk.putRequest (env : HttpEnv) (path : String) (data : Option JsValue) (hs : HttpState) :
    Except JsValue JsValue × HttpState :=
  Sdk._req env .put path data hs

def Sdk.getRequest (env : HttpEnv) (path : String) (hs : HttpState) :
    Except JsValue JsValue × HttpState :=
  Sdk._req env .get path none hs

/-- JavaScript string coercion as used by the template literals of this
module. Every value interpolated there (user ids, emails) is a string;
primitives follow JavaScript; the recursive array coercion is unused
here and not modelled. -/
def jsToString : JsValue → String
  | .str s => s
  | .num n => if 0 ≤ n then natToString n.toNat else "-" ++ natToString (-n).toNat
  | .bool true => "true"
  | .bool false => "false"
  | .null => "null"
  | .undef => "undefined"
  | .arr _ => ""
  | .obj _ => "[object Object]"

/-- `UserSdk.fromEmail(email)`: look the user up by email; resolve with
`null` when the response has no (falsy) body or the body is not a
one-element list, else with the single element. -/
def UserSdk.fromEmail (env : HttpEnv) (email : String) (hs : HttpState) :
    Except JsValue JsValue × HttpState :=
  match Sdk.getRequest env ("/users?email=" ++ encodeURIComponent email) hs with
  | (.error e, hs1) => (.error e, hs1)
  | (.ok res, hs1) =>
      let body := res.get "body"
      if jsFalsy body then (.ok .null, hs1)
      else if !jsStrictEqNum body.lengthProp 1 then (.ok .null, hs1)
      else (.ok (body.index 0), hs1)

/-- `UserSdk._startEmailVerification(id, body)`. -/
def UserSdk._startEmailVerification (env : HttpEnv) (id : String) (b : JsValue)
    (hs : HttpState) : Except JsValue JsValue × HttpState :=
  Sdk.postRequest env ("/users/" ++ id ++ "/start-email-verification") (some b) hs

/-- `UserSdk.startPasswordReset(id, b)`. -/
def UserSdk.startPasswordReset (env : HttpEnv) (id : String) (b : Option JsValue)
    (hs : HttpState) : Except JsValue JsValue × HttpState :=
  Sdk.postRequest env ("/users/" ++ id ++ "/start-password-reset") b hs

/-- `UserSdk.startEmailVerification(b)`: find the user by `b.email`;
throw `new Error("User not found")` when there is none, else start the
verification for the found user id; resolves with `undefined`
(`Promise<void>`). -/
def UserSdk.startEmailVerification (env : HttpEnv) (b : JsValue) (hs : HttpState) :
    Except JsValue JsValue × HttpState :=
  match UserSdk.fromEmail env (jsToString (b.get "email")) hs with
  | (.error e, hs1) => (.error e, hs1)
  | (.ok user, hs1) =>
      if jsFalsy user then (.error (jsError "User not found"), hs1)
      else
        match UserSdk._startEmailVerification env (jsToString (user.get "id")) b hs1 with
        | (.ok _, hs2) => (.ok .undef, hs2)
        | (.error e, hs2) => (.error e, hs2)

/-- `UserSdk.forgotPassword(p)`: find the user by `p.email`; throw
`new Error("User not found")` when there is none, else start a password
reset for the found user id with `p.locale ? {locale: p.locale} : {}`;
resolves with `undefined` (`Promise<void>`). -/
def UserSdk.forgotPassword (env : HttpEnv) (p : JsValue) (hs : HttpState) :
    Except JsValue JsValue × HttpState :=
  match UserSdk.fromEmail env (jsToString (p.get "email")) hs with
  | (.error e, hs1) => (.error e, hs1)
  | (.ok user, hs1) =>
      if jsFalsy user then (.error (jsError "User not found"), hs1)
      else
        match UserSdk.startPasswordReset env (jsToString (user.get "id"))
            (some (if jsFalsy (p.get "locale") then .obj []
              else .obj [("locale", p.get "locale")])) hs1 with
        | (.ok _, hs2) => (.ok .undef, hs2)
        | (.error e, hs2) => (.error e, hs2)

/-- Claim C8: if the injected credential provider rejects with error `e`,
each of the four facade operations rejects with that same error `e`, and
no request is sent — the request log is unchanged — and the error is not
caught anywhere in the facade. -/
theorem req_auth_rejection_propagates (env : HttpEnv) (path : String) (data : Option JsValue)
    (hs : HttpState) (e : JsValue) (h : env.authenticator hs.authCalls = .error e) :
    Sdk.getRequest env path hs = (.error e, { hs with authCalls := hs.authCalls + 1 }) ∧
    Sdk.deleteRequest env path hs = (.error e, { hs with authCalls := hs.authCalls + 1 }) ∧
    Sdk.putRequest env path data hs = (.error e, { hs with authCalls := hs.authCalls + 1 }) ∧
    Sdk.postRequest env path data hs = (.error e, { hs with authCalls := hs.authCalls + 1 }) ∧
    ({ hs with authCalls := hs.authCalls + 1 } : HttpState).requestLog = hs.requestLog := by
  unfold Sdk.getRequest Sdk.deleteRequest Sdk.putRequest Sdk.postRequest Sdk._req
  rw [h]
  exact ⟨rfl, rfl, rfl, rfl, rfl⟩

/-- A provider that always rejects. -/
def authRejectEnv : HttpEnv :=
  ⟨"/api", fun _ => .error (jsError "token expired"), fun _ => .ok .null⟩

/-- Witness for C8: against a provider that rejects, a concrete get and a
concrete post both reject with the provider error and send nothing. -/
theorem req_auth_rejection_propagates_witness :
    Sdk.getRequest authRejectEnv "/users/u1" ⟨0, []⟩ =
      (.error (jsError "token expired"), ⟨1, []⟩) ∧
    Sdk.postRequest authRejectEnv "/users" (some (.obj [])) ⟨0, []⟩ =
      (.error (jsError "token expired"), ⟨1, []⟩) := by
  refine ⟨?_, ?_⟩
  · exact (req_auth_rejection_propagates authRejectEnv "/users/u1" none ⟨0, []⟩
      (jsError "token expired") rfl).1
  · exact (req_auth_rejection_propagates authRejectEnv "/users" (some (.obj [])) ⟨0, []⟩
      (jsError "token expired") rfl).2.2.2.1

/-- Claim C7: on every HTTP call the credential provider is re-invoked —
each call consumes exactly one fresh provider invocation, whatever the
outcome, so the n-th call renders its header from the n-th provider
result and rotation is transparent — and the Authorization header is
rendered per variant: unauthenticated sets no header, basic sets
"Basic " followed by the base64 of "username:password", bearer sets
"Bearer " followed by the token. -/
theorem req_auth_fresh_and_rendered (env : HttpEnv) (m : HttpMethod) (path : String)
    (data : Option JsValue) (hs : HttpState) :
    ((Sdk._req env m path data hs).2.authCalls = hs.authCalls + 1) ∧
    (∀ strat, env.authenticator hs.authCalls = .ok strat →
      (Sdk._req env m path data hs).2.requestLog =
        hs.requestLog ++ [⟨m, env.baseUrl ++ path, renderAuthHeader strat, data⟩]) ∧
    renderAuthHeader .unauthenticated = none ∧
    (∀ u p, renderAuthHeader (.basic u p) =
      some ("Basic " ++ base64 (utf8Encode (u ++ ":" ++ p)))) ∧
    (∀ t, renderAuthHeader (.bearer t) = some ("Bearer " ++ t)) := by
  refine ⟨?_, ?_, rfl, fun u p => rfl, fun t => rfl⟩
  · unfold Sdk._req
    cases h : env.authenticator hs.authCalls <;> simp
  · intro strat h
    unfold Sdk._req
    rw [h]

/-- A provider that rotates: basic credentials on its first invocation, a
bearer token afterwards. -/
def rotatingAuthEnv : HttpEnv :=
  ⟨"/api", fun n => if n = 0 then .ok (.basic "a" "b") else .ok (.bearer "xyz"),
    fun _ => .ok .null⟩

/-- Witness for C7: two consecutive calls against the rotating provider
send, in order, the header "Basic YTpi" (the base64 of "a:b" is "YTpi")
and then the header "Bearer xyz" — each call picked up the fresh
provider result. -/
theorem req_auth_fresh_and_rendered_witness :
    (Sdk.getRequest rotatingAuthEnv "/x" ⟨0, []⟩).2.requestLog =
      [⟨.get, "/api/x", some "Basic YTpi", none⟩] ∧
    (Sdk.getRequest rotatingAuthEnv "/y" (Sdk.getRequest rotatingAuthEnv "/x" ⟨0, []⟩).2).2.requestLog =
      [⟨.get, "/api/x", some "Basic YTpi", none⟩, ⟨.get, "/api/y", some "Bearer xyz", none⟩] := by
  constructor
  · have h := (req_auth_fresh_and_rendered rotatingAuthEnv .get "/x" none ⟨0, []⟩).2.1
      (.basic "a" "b") rfl
    rw [show Sdk.getRequest rotatingAuthEnv "/x" ⟨0, []⟩ =
      Sdk._req rotatingAuthEnv .get "/x" none ⟨0, []⟩ from rfl, h]
    rfl
  · have h := (req_auth_fresh_and_rendered rotatingAuthEnv .get "/y"
      none (Sdk.getRequest rotatingAuthEnv "/x" ⟨0, []⟩).2).2.1 (.bearer "xyz") rfl
    rw [show Sdk.getRequest rotatingAuthEnv "/y" (Sdk.getRequest rotatingAuthEnv "/x" ⟨0, []⟩).2 =
      Sdk._req rotatingAuthEnv .get "/y" none (Sdk.getRequest rotatingAuthEnv "/x" ⟨0, []⟩).2
        from rfl, h]
    rfl

/-- Claim C4 (amended): each of the four facade operations — get(path),
delete(path), put(path, body?), post(path, body?) — issues exactly one
request against the configured base URL concatenated with the path (with
the given body for put/post, none for get/delete) and returns a promise
of the full transport response to that request: the response object, of
which the parsed body is a field that callers extract themselves;
delete, too, returns the response rather than void. -/
theorem facade_request_url_and_result (env : HttpEnv) (path : String) (data : Option JsValue)
    (hs : HttpState) (strat : AuthStrategy)
    (h : env.authenticator hs.authCalls = .ok strat) :
    Sdk.getRequest env path hs =
      (env.respond ⟨.get, env.baseUrl ++ path, renderAuthHeader strat, none⟩,
        ⟨hs.authCalls + 1,
          hs.requestLog ++ [⟨.get, env.baseUrl ++ path, renderAuthHeader strat, none⟩]⟩) ∧
    Sdk.deleteRequest env path hs =
      (env.respond ⟨.delete, env.baseUrl ++ path, renderAuthHeader strat, none⟩,
        ⟨hs.authCalls + 1,
          hs.requestLog ++ [⟨.delete, env.baseUrl ++ path, renderAuthHeader strat, none⟩]⟩) ∧
    Sdk.putRequest env path data hs =
      (env.respond ⟨.put, env.baseUrl ++ path, renderAuthHeader strat, data⟩,
        ⟨hs.authCalls + 1,
          hs.requestLog ++ [⟨.put, env.baseUrl ++ path, renderAuthHeader strat, data⟩]⟩) ∧
    Sdk.postRequest env path data hs =
      (env.respond ⟨.post, env.baseUrl ++ path, renderAuthHeader strat, data⟩,
        ⟨hs.authCalls + 1,
          hs.requestLog ++ [⟨.post, env.baseUrl ++ path, renderAuthHeader strat, data⟩]⟩) := by
  unfold Sdk.getRequest Sdk.deleteRequest Sdk.putRequest Sdk.postRequest Sdk._req
  rw [h]
  exact ⟨rfl, rfl, rfl, rfl⟩

/-- A transport whose responses carry status 200 and the parsed body
"hello" inside the response object. -/
def fixedRespEnv : HttpEnv :=
  ⟨"/api", fun _ => .ok .unauthenticated,
    fun _ => .ok (.obj [("status", .num 200), ("body", .str "hello")])⟩

/-- Witness for C4 at concrete inputs: a get resolves with the full
response object for the request on "/api/x", and a post with no body
sends no body while a post with a body sends exactly it. -/
theorem facade_request_url_and_result_witness :
    Sdk.getRequest fixedRespEnv "/x" ⟨0, []⟩ =
      (.ok (.obj [("status", .num 200), ("body", .str "hello")]),
        ⟨1, [⟨.get, "/api/x", none, none⟩]⟩) ∧
    (Sdk.postRequest fixedRespEnv "/x" (some (.obj [("x", .num 1)])) ⟨0, []⟩).2.requestLog =
      [⟨.post, "/api/x", none, some (.obj [("x", .num 1)])⟩] := by
  constructor
  · exact (facade_request_url_and_result fixedRespEnv "/x" none ⟨0, []⟩
      .unauthenticated rfl).1
  · rw [(facade_request_url_and_result fixedRespEnv "/x" (some (.obj [("x", .num 1)])) ⟨0, []⟩
      .unauthenticated rfl).2.2.2]
    rfl

/-- Counterexample to claim C4 as stated: the facade does not return the
parsed response body (nor void for delete) — it resolves with the whole
response object. Here the transport responds with a response object
whose parsed body is the string "hello": both get and delete resolve
with the response object, which differs from the parsed body. -/
theorem facade_returns_response_not_body_cex :
    (Sdk.getRequest fixedRespEnv "/x" ⟨0, []⟩).1 =
      .ok (.obj [("status", .num 200), ("body", .str "hello")]) ∧
    (JsValue.obj [("status", .num 200), ("body", .str "hello")]).get "body" = .str "hello" ∧
    (Sdk.getRequest fixedRespEnv "/x" ⟨0, []⟩).1 ≠ .ok (.str "hello") ∧
    (Sdk.deleteRequest fixedRespEnv "/x" ⟨0, []⟩).1 =
      .ok (.obj [("status", .num 200), ("body", .str "hello")]) := by
  refine ⟨rfl, rfl, ?_, rfl⟩
  intro h
  rw [show (Sdk.getRequest fixedRespEnv "/x" ⟨0, []⟩).1 =
    Except.ok (JsValue.obj [("status", .num 200), ("body", .str "hello")]) from rfl] at h
  injection h with h2
  cases h2

theorem startEmailVerification_not_found_aux (env : HttpEnv) (b : JsValue) (hs : HttpState)
    (u : JsValue) (hb : (UserSdk.fromEmail env (jsToString (b.get "email")) hs).1 = .ok u)
    (hu : jsFalsy u = true) :
    UserSdk.startEmailVerification env b hs =
      (.error (jsError "User not found"),
        (UserSdk.fromEmail env (jsToString (b.get "email")) hs).2) := by
  unfold UserSdk.startEmailVerification
  rcases hfe : UserSdk.fromEmail env (jsToString (b.get "email")) hs with ⟨r, hs1⟩
  rw [hfe] at hb
  have hr : r = .ok u := hb
  subst hr
  simp [hu]

theorem forgotPassword_not_found_aux (env : HttpEnv) (p : JsValue) (hs : HttpState)
    (v : JsValue) (hp : (UserSdk.fromEmail env (jsToString (p.get "email")) hs).1 = .ok v)
    (hv : jsFalsy v = true) :
    UserSdk.forgotPassword env p hs =
      (.error (jsError "User not found"),
        (UserSdk.fromEmail env (jsToString (p.get "email")) hs).2) := by
  unfold UserSdk.forgotPassword
  rcases hfe : UserSdk.fromEmail env (jsToString (p.get "email")) hs with ⟨r, hs1⟩
  rw [hfe] at hp
  have hr : r = .ok v := hp
  subst hr
  simp [hv]

/-- Claim C9: for the operations that locate an existing user by email,
if the lookup resolves with no user (a falsy value — `null` from
`fromEmail`), both `startEmailVerification` and `forgotPassword` reject
with an error whose message is "User not found", and no subsequent
request is issued: the final facade state is exactly the state right
after the lookup. -/
theorem email_ops_user_not_found (env : HttpEnv) (b p : JsValue) (hs : HttpState)
    (u v : JsValue)
    (hb : (UserSdk.fromEmail env (jsToString (b.get "email")) hs).1 = .ok u)
    (hu : jsFalsy u = true)
    (hp : (UserSdk.fromEmail env (jsToString (p.get "email")) hs).1 = .ok v)
    (hv : jsFalsy v = true) :
    UserSdk.startEmailVerification env b hs =
      (.error (jsError "User not found"),
        (UserSdk.fromEmail env (jsToString (b.get "email")) hs).2) ∧
    UserSdk.forgotPassword env p hs =
      (.error (jsError "User not found"),
        (UserSdk.fromEmail env (jsToString (p.get "email")) hs).2) :=
  ⟨startEmailVerification_not_found_aux env b hs u hb hu,
    forgotPassword_not_found_aux env p hs v hp hv⟩

/-- A transport whose user lookup returns two matching users — an
ambiguous email, which `fromEmail` reports as `null`. -/
def twoUserEnv : HttpEnv :=
  ⟨"/api", fun _ => .ok .unauthenticated,
    fun _ => .ok (.obj [("body",
      .arr [.obj [("id", .str "u1")], .obj [("id", .str "u2")]])])⟩

/-- Witness for C9: against the ambiguous lookup, both operations reject
with "User not found" and the only request ever sent is the single
lookup GET. -/
theorem email_ops_user_not_found_witness :
    (UserSdk.startEmailVerification twoUserEnv (.obj [("email", .str "a@b.c")]) ⟨0, []⟩).1 =
      .error (jsError "User not found") ∧
    (UserSdk.forgotPassword twoUserEnv (.obj [("email", .str "a@b.c")]) ⟨0, []⟩).1 =
      .error (jsError "User not found") ∧
    (UserSdk.startEmailVerification twoUserEnv
        (.obj [("email", .str "a@b.c")]) ⟨0, []⟩).2.requestLog =
      [⟨.get, "/api/users?email=a%40b.c", none, none⟩] := by
  refine ⟨?_, ?_, ?_⟩
  · rw [(email_ops_user_not_found twoUserEnv (.obj [("email", .str "a@b.c")])
      (.obj [("email", .str "a@b.c")]) ⟨0, []⟩ .null .null rfl rfl rfl rfl).1]
  · rw [(email_ops_user_not_found twoUserEnv (.obj [("email", .str "a@b.c")])
      (.obj [("email", .str "a@b.c")]) ⟨0, []⟩ .null .null rfl rfl rfl rfl).2]
  · rw [(email_ops_user_not_found twoUserEnv (.obj [("email", .str "a@b.c")])
      (.obj [("email", .str "a@b.c")]) ⟨0, []⟩ .null .null rfl rfl rfl rfl).1]
    rfl

/-- Claim C10: `fromEmail` resolves — it does not reject — with `null`
both when the lookup response has a falsy (absent) body and when the
returned list has length different from 1, so an ambiguous email is
treated like an absent user; only a one-element result resolves with
that user. -/
theorem fromEmail_null_on_absent_or_ambiguous (env : HttpEnv) (email : String)
    (hs : HttpState) (res : JsValue)
    (h : (Sdk.getRequest env ("/users?email=" ++ encodeURIComponent email) hs).1 = .ok res) :
    (jsFalsy (res.get "body") = true → (UserSdk.fromEmail env email hs).1 = .ok .null) ∧
    (∀ users : List JsValue, res.get "body" = .arr users → users.length ≠ 1 →
      (UserSdk.fromEmail env email hs).1 = .ok .null) ∧
    (∀ u : JsValue, res.get "body" = .arr [u] → (UserSdk.fromEmail env email hs).1 = .ok u) := by
  unfold UserSdk.fromEmail
  rcases hget : Sdk.getRequest env ("/users?email=" ++ encodeURIComponent email) hs
    with ⟨r, hs1⟩
  rw [hget] at h
  have hr : r = .ok res := h
  subst hr
  refine ⟨?_, ?_, ?_⟩
  · intro hfalsy
    simp [hfalsy]
  · intro users hbody hlen
    have hfalsy : jsFalsy (res.get "body") = false := by rw [hbody]; rfl
    have hne : jsStrictEqNum (res.get "body").lengthProp 1 = false := by
      rw [hbody]
      show ((users.length : Int) == 1) = false
      simp
      omega
    simp [hfalsy, hne]
  · intro u hbody
    have hfalsy : jsFalsy (res.get "body") = false := by rw [hbody]; rfl
    have heq : jsStrictEqNum (res.get "body").lengthProp 1 = true := by rw [hbody]; rfl
    simp [hfalsy, heq, hbody]
    rfl

/-- A transport whose lookup response has no body field at all. -/
def noBodyEnv : HttpEnv :=
  ⟨"/api", fun _ => .ok .unauthenticated, fun _ => .ok (.obj [("status", .num 200)])⟩

/-- A transport whose lookup returns exactly one user. -/
def oneUserEnv : HttpEnv :=
  ⟨"/api", fun _ => .ok .unauthenticated,
    fun _ => .ok (.obj [("body", .arr [.obj [("id", .str "u1")]])])⟩

/-- Witness for C10 at concrete transports: no body resolves with null,
two matches resolve with null, a single match resolves with that user. -/
theorem fromEmail_null_on_absent_or_ambiguous_witness :
    (UserSdk.fromEmail noBodyEnv "a@b.c" ⟨0, []⟩).1 = .ok .null ∧
    (UserSdk.fromEmail twoUserEnv "a@b.c" ⟨0, []⟩).1 = .ok .null ∧
    (UserSdk.fromEmail oneUserEnv "a@b.c" ⟨0, []⟩).1 = .ok (.obj [("id", .str "u1")]) := by
  refine ⟨?_, ?_, ?_⟩
  · exact (fromEmail_null_on_absent_or_ambiguous noBodyEnv "a@b.c" ⟨0, []⟩
      (.obj [("status", .num 200)]) rfl).1 rfl
  · exact (fromEmail_null_on_absent_or_ambiguous twoUserEnv "a@b.c" ⟨0, []⟩
      (.obj [("body", .arr [.obj [("id", .str "u1")], .obj [("id", .str "u2")]])]) rfl).2.1
      [.obj [("id", .str "u1")], .obj [("id", .str "u2")]] rfl (by decide)
  · exact (fromEmail_null_on_absent_or_ambiguous oneUserEnv "a@b.c" ⟨0, []⟩
      (.obj [("body", .arr [.obj [("id", .str "u1")]])]) rfl).2.2
      (.obj [("id", .str "u1")]) rfl
